import Mathlib

/-!
Verification development for the waterfall layout decision engine
(`src/tools/enhanced_powerpoint_tools.py`).

Strings are modelled as Lean `String`s; the character-level work is done on
`List Char` (`String.data`).  Python builtins used by the source are embedded
on their ASCII fragment:

* `str.lower`    → `Py.lowerC` (maps `'A'..'Z'` to `'a'..'z'`, identity elsewhere),
* `str.strip`    → `Py.stripC` (removes the Python whitespace class at both ends),
* `str.split('\n')` → `Py.splitNl`,
* `str.split(sep)`  → `Py.pySplit` (split at every non-overlapping occurrence),
* `'\n'.join`    → `Py.joinNl`,
* `in` (substring test) → `Py.isSubstrC`,
* `str.startswith`      → `List.isPrefixOf`.

The specific regular expressions of the source are embedded as dedicated
left-to-right scanners reproducing `re.findall` / `re.search` semantics
(leftmost match, greedy repetition, non-overlapping continuation) for exactly
the patterns the source uses.
-/

namespace Py

/-- ASCII fragment of Python `str.lower` on one character. -/
def pyLowerChar (c : Char) : Char :=
  if 'A' ≤ c ∧ c ≤ 'Z' then Char.ofNat (c.toNat + 32) else c

/-- Python `str.lower` on a character list. -/
def lowerC (l : List Char) : List Char := l.map pyLowerChar

/-- Python whitespace class used by `str.strip` and by `\s` in the patterns. -/
def isPyWs (c : Char) : Bool :=
  c == ' ' || c == '\t' || c == '\n' || c == '\r' || c == '\x0b' || c == '\x0c'

/-- Python `str.strip`: drop whitespace from both ends. -/
def stripC (l : List Char) : List Char :=
  ((l.dropWhile isPyWs).reverse.dropWhile isPyWs).reverse

/-- Python `str.split('\n')`: always returns at least one piece. -/
def splitNl : List Char → List (List Char)
  | [] => [[]]
  | c :: t =>
    let r := splitNl t
    if c = '\n' then [] :: r
    else
      match r with
      | h :: t' => (c :: h) :: t'
      | [] => [[c]]

/-- Python `'\n'.join`. -/
def joinNl : List (List Char) → List Char
  | [] => []
  | [x] => x
  | x :: y :: t => x ++ '\n' :: joinNl (y :: t)

/-- Python substring test `needle in hay`. -/
def isSubstrC (needle : List Char) : List Char → Bool
  | [] => needle.isPrefixOf []
  | c :: t => needle.isPrefixOf (c :: t) || isSubstrC needle t

/-- Split a list around the first occurrence of `sep`:
`some (before, after)` when `sep` occurs, `none` otherwise. -/
def splitFirst (sep : List Char) : List Char → Option (List Char × List Char)
  | [] => if sep.isPrefixOf ([] : List Char) then some ([], []) else none
  | c :: t =>
    if sep.isPrefixOf (c :: t) then some ([], (c :: t).drop sep.length)
    else (splitFirst sep t).map fun p => (c :: p.1, p.2)

/-- Fuel-driven worker for Python `str.split(sep)`. -/
def pySplitF (sep : List Char) : Nat → List Char → List (List Char)
  | 0, l => [l]
  | fuel + 1, l =>
    match splitFirst sep l with
    | none => [l]
    | some (b, a) => b :: pySplitF sep fuel a

/-- Python `str.split(sep)` for a non-empty separator; `l.length` fuel always
suffices because every successful `splitFirst` removes at least one character. -/
def pySplit (sep l : List Char) : List (List Char) := pySplitF sep l.length l

/-- Digits-to-integer conversion, Python `int` on a digit string. -/
def natOfDigits (l : List Char) : Nat :=
  l.foldl (fun a c => 10 * a + (c.toNat - 48)) 0

end Py

namespace Waterfall

open Py

/-! ### Regex scanners

Each scanner reproduces `re.findall`/`re.search` for one concrete pattern of
the source.  `fuel` is always instantiated with the input length; every step
either consumes the matched span or advances one character, so the fuel never
runs out before the input does. -/

/-- One attempt of pattern `(\d+)%` at the current position:
`some (digits, rest)` on success. -/
def tryPercentAt (l : List Char) : Option (List Char × List Char) :=
  let ds := l.takeWhile Char.isDigit
  if ds.isEmpty then none
  else
    match l.dropWhile Char.isDigit with
    | '%' :: r => some (ds, r)
    | _ => none

/-- Scanner for `re.findall(r'(\d+)%', ·)` — the captured digit groups. -/
def findallPercent : Nat → List Char → List (List Char)
  | 0, _ => []
  | fuel + 1, l =>
    match tryPercentAt l with
    | some (ds, r) => ds :: findallPercent fuel r
    | none =>
      match l with
      | [] => []
      | _ :: t => findallPercent fuel t

/-- One attempt of `\d+\s*(percent|%)` at the current position:
`some (group, rest)`; the alternation tries `percent` before `%`. -/
def tryPercentWordAt (l : List Char) : Option (List Char × List Char) :=
  let ds := l.takeWhile Char.isDigit
  if ds.isEmpty then none
  else
    let r1 := (l.dropWhile Char.isDigit).dropWhile isPyWs
    if ("percent".data).isPrefixOf r1 then some ("percent".data, r1.drop 7)
    else
      match r1 with
      | '%' :: r => some (['%'], r)
      | _ => none

/-- Scanner for `re.findall(r'\d+\s*(percent|%)', ·)` — the captured groups. -/
def findallPercentWord : Nat → List Char → List (List Char)
  | 0, _ => []
  | fuel + 1, l =>
    match tryPercentWordAt l with
    | some (g, r) => g :: findallPercentWord fuel r
    | none =>
      match l with
      | [] => []
      | _ :: t => findallPercentWord fuel t

/-- One attempt of `<lit>\d+` (a literal followed by at least one digit)
at the current position, returning the whole match and the rest. -/
def tryLitDigitsAt (lit l : List Char) : Option (List Char × List Char) :=
  if lit.isPrefixOf l then
    let r := l.drop lit.length
    let ds := r.takeWhile Char.isDigit
    if ds.isEmpty then none else some (lit ++ ds, r.dropWhile Char.isDigit)
  else none

/-- Scanner of `re.findall` for the literal-then-digits patterns `increased by \d+`,
`decreased by \d+` and `growth of \d+`. -/
def findallLitDigits (lit : List Char) : Nat → List Char → List (List Char)
  | 0, _ => []
  | fuel + 1, l =>
    match tryLitDigitsAt lit l with
    | some (m, r) => m :: findallLitDigits lit fuel r
    | none =>
      match l with
      | [] => []
      | _ :: t => findallLitDigits lit fuel t

/-- One attempt of `\d+\s*(million|billion|thousand)` at the current
position, returning the captured group and the rest. -/
def tryLargeNumAt (l : List Char) : Option (List Char × List Char) :=
  let ds := l.takeWhile Char.isDigit
  if ds.isEmpty then none
  else
    let r1 := (l.dropWhile Char.isDigit).dropWhile isPyWs
    if ("million".data).isPrefixOf r1 then some ("million".data, r1.drop 7)
    else if ("billion".data).isPrefixOf r1 then some ("billion".data, r1.drop 7)
    else if ("thousand".data).isPrefixOf r1 then some ("thousand".data, r1.drop 8)
    else none

/-- Scanner for `re.findall(r'\d+\s*(million|billion|thousand)', ·)` — captured groups. -/
def findallLargeNum : Nat → List Char → List (List Char)
  | 0, _ => []
  | fuel + 1, l =>
    match tryLargeNumAt l with
    | some (g, r) => g :: findallLargeNum fuel r
    | none =>
      match l with
      | [] => []
      | _ :: t => findallLargeNum fuel t

/-- One attempt of `(?:increased|grew|growth)\s+(?:by\s+)?(\d+)` at the
current position: the alternation is tried in source order, `\s+` needs at
least one whitespace, the optional `by\s+` is taken only when `by` is
followed by whitespace, and if the digits then fail the attempt fails
altogether (backtracking to the empty option cannot succeed because the
next character is `b`). -/
def tryGrowthAt (l : List Char) : Option (List Char × List Char) :=
  let kwLen : Option Nat :=
    if ("increased".data).isPrefixOf l then some 9
    else if ("grew".data).isPrefixOf l then some 4
    else if ("growth".data).isPrefixOf l then some 6
    else none
  match kwLen with
  | none => none
  | some n =>
    let r1 := l.drop n
    if (r1.takeWhile isPyWs).isEmpty then none
    else
      let r2 := r1.dropWhile isPyWs
      let r3 :=
        if ("by".data).isPrefixOf r2 ∧ ¬((r2.drop 2).takeWhile isPyWs).isEmpty then
          (r2.drop 2).dropWhile isPyWs
        else r2
      let ds := r3.takeWhile Char.isDigit
      if ds.isEmpty then none else some (ds, r3.dropWhile Char.isDigit)

/-- Scanner for `re.findall(r'(?:increased|grew|growth)\s+(?:by\s+)?(\d+)', ·)` —
the captured digit groups. -/
def findallGrowth : Nat → List Char → List (List Char)
  | 0, _ => []
  | fuel + 1, l =>
    match tryGrowthAt l with
    | some (ds, r) => ds :: findallGrowth fuel r
    | none =>
      match l with
      | [] => []
      | _ :: t => findallGrowth fuel t

/-- Search `re.search(r'\d+\.', ·)` succeeds iff some digit is immediately followed
by a dot (the last digit of the matched run is such a digit, and conversely). -/
def containsDigitDot : List Char → Bool
  | [] => false
  | [_] => false
  | c1 :: c2 :: t => (c1.isDigit && c2 == '.') || containsDigitDot (c2 :: t)

/-- Search `re.search(r'<lit>\d', ·)`: some occurrence of the literal is followed by
a digit (used for `step \d+` and `phase \d+`, where one digit suffices). -/
def containsLitDigit (lit : List Char) : List Char → Bool
  | [] =>
    (lit.isPrefixOf ([] : List Char)) &&
      (match ([] : List Char).drop lit.length with
        | c :: _ => c.isDigit
        | [] => false)
  | l@(_ :: t) =>
    ((lit.isPrefixOf l) &&
      (match l.drop lit.length with
        | c :: _ => c.isDigit
        | [] => false)) || containsLitDigit lit t

/-- Backtracking tail of the step-pattern match: when `\s*` has swallowed all
whitespace and `.+` finds no non-newline character, the regex gives back the
last non-newline whitespace character, which becomes the whole capture. -/
def stepBacktrack (ws r3 : List Char) : Option (List Char × List Char) :=
  match ws.reverse.dropWhile (· == '\n') with
  | [] => none
  | c :: _ => some ([c], (ws.reverse.takeWhile (· == '\n')).reverse ++ r3)

/-- One attempt of `(\d+)\.\s*(.+)` at the current position, returning the
second capture (the step text, greedy up to the next newline) and the rest. -/
def tryStepAt (l : List Char) : Option (List Char × List Char) :=
  let ds := l.takeWhile Char.isDigit
  if ds.isEmpty then none
  else
    match l.dropWhile Char.isDigit with
    | '.' :: r2 =>
      let ws := r2.takeWhile isPyWs
      let r3 := r2.dropWhile isPyWs
      match r3 with
      | c :: _ =>
        if c = '\n' then stepBacktrack ws r3
        else some (r3.takeWhile (· ≠ '\n'), r3.dropWhile (· ≠ '\n'))
      | [] => stepBacktrack ws r3
    | _ => none

/-- Scanner for `re.findall(r'(\d+)\.\s*(.+)', ·)` — the second captures. -/
def findallSteps : Nat → List Char → List (List Char)
  | 0, _ => []
  | fuel + 1, l =>
    match tryStepAt l with
    | some (cap, r) => cap :: findallSteps fuel r
    | none =>
      match l with
      | [] => []
      | _ :: t => findallSteps fuel t

/-! ### Data model

The Python functions build dictionaries with fixed key sets; they are embedded
as records, and the shape-dependent `content_structure` dictionary as a closed
sum.  Field names keep the source's dictionary keys. -/

/-- Result dictionary of `extract_comparison_structure`. -/
structure ComparisonData where
  left_side : List String
  right_side : List String
  comparison_type : String
deriving Repr, DecidableEq

/-- Result dictionary of `extract_chart_data`. -/
structure ChartData where
  chart_type : String
  data_points : List String
  categories : List String
  values : List Nat
deriving Repr, DecidableEq

/-- Result dictionary of `extract_process_structure`. -/
structure ProcessData where
  process_type : String
  steps : List String
  total_steps : Nat
deriving Repr, DecidableEq

/-- The `content_structure` entry of the analysis dictionary: starts as the
empty dictionary and is replaced wholesale by the rule that sets it. -/
inductive ContentStructure where
  | empty : ContentStructure
  | comparison (d : ComparisonData) : ContentStructure
  | chart (d : ChartData) : ContentStructure
  | process (d : ProcessData) : ContentStructure
  | twoColumn (left_column right_column : String) : ContentStructure
deriving Repr, DecidableEq

/-- The analysis dictionary built by `analyze_content_for_optimal_layout`. -/
structure Analysis where
  layout_type : String
  slide_layout_index : Nat
  visual_elements : List String
  reasoning : String
  enhancements : List String
  content_structure : ContentStructure
deriving Repr, DecidableEq

/-! ### Bullet extractor (`extract_bullet_points`) -/

/-- Leading character class of the cleanup `re.sub(r'^[•\-*\d\.\s]+', '', ·)`. -/
def markerClass (c : Char) : Bool :=
  c == '•' || c == '-' || c == '*' || c.isDigit || c == '.' || isPyWs c

/-- The bullet markers of `line.startswith(('•', '-', '*', '1.', '2.', '3.'))`. -/
def bulletMarkers : List (List Char) :=
  ["•".data, "-".data, "*".data, "1.".data, "2.".data, "3.".data]

/-- The trigger words `['important', 'key', 'main', 'primary']`. -/
def bulletTriggerWords : List (List Char) :=
  ["important".data, "key".data, "main".data, "primary".data]

/-- Loop body of `extract_bullet_points` on one raw line, mirroring the
source: strip, select when a marker starts the line or a trigger word occurs
in its lowercase form, clean the leading marker run, drop empty results. -/
def bulletSelect (line : List Char) : Option (List Char) :=
  let l := stripC line
  if !l.isEmpty && (bulletMarkers.any (·.isPrefixOf l) ||
      bulletTriggerWords.any fun w => isSubstrC w (lowerC l)) then
    let clean_point := l.dropWhile markerClass
    if !clean_point.isEmpty then some clean_point else none
  else none

/-- The function `extract_bullet_points`, written as the source's accumulator loop over
`text.split('\n')`. -/
def extract_bullet_points (text : String) : List String :=
  ((splitNl text.data).foldl
    (fun points line =>
      match bulletSelect line with
      | some p => points ++ [p]
      | none => points) []).map String.mk

/-! ### Structure extractors -/

/-- Keyword list of `extract_comparison_structure` (the classifier's list
additionally holds `"difference between"` and a duplicate `"versus"`). -/
def comparisonSplitKeywords : List (List Char) :=
  ["vs".data, "versus".data, "compared to".data, "compared with".data]

/-- The `for keyword in comparison_keywords: ... break` loop of
`extract_comparison_structure`: the first keyword occurring in the lowered
content splits it, both sides run through the bullet extractor. -/
def comparisonLoop (lower : List Char) : List (List Char) → ComparisonData
  | [] => { left_side := [], right_side := [], comparison_type := "general" }
  | kw :: rest =>
    if isSubstrC kw lower then
      match pySplit kw lower with
      | p0 :: p1 :: _ =>
        { left_side := extract_bullet_points ⟨p0⟩,
          right_side := extract_bullet_points ⟨p1⟩,
          comparison_type := "general" }
      | _ => comparisonLoop lower rest
    else comparisonLoop lower rest

/-- The function `extract_comparison_structure`. -/
def extract_comparison_structure (content : String) : ComparisonData :=
  comparisonLoop (lowerC content.data) comparisonSplitKeywords

/-- The percentage matches `re.findall(r'(\d+)%', content)` (original case). -/
def percentMatches (content : String) : List (List Char) :=
  findallPercent content.data.length content.data

/-- The growth matches
`re.findall(r'(?:increased|grew|growth)\s+(?:by\s+)?(\d+)', content.lower())`. -/
def growthMatches (content : String) : List (List Char) :=
  findallGrowth (lowerC content.data).length (lowerC content.data)

/-- The synthesized labels `f"{prefixWord} {i+1}"` for `i in range(n)`. -/
def rangeLabels (prefixWord : String) (n : Nat) : List String :=
  (List.range n).map fun i => prefixWord ++ " " ++ toString (i + 1)

/-- The function `extract_chart_data`: the percentage branch runs first and the growth
branch second, each overwriting `chart_type`/`values`/`categories` in place. -/
def extract_chart_data (content : String) : ChartData :=
  let data : ChartData :=
    { chart_type := "column", data_points := [], categories := [], values := [] }
  let percentages := percentMatches content
  let data :=
    if !percentages.isEmpty then
      { data with chart_type := "pie",
                  values := percentages.map natOfDigits,
                  categories := rangeLabels "Category" percentages.length }
    else data
  let growth_matches := growthMatches content
  if !growth_matches.isEmpty then
    { data with chart_type := "column",
                values := growth_matches.map natOfDigits,
                categories := rangeLabels "Growth" growth_matches.length }
  else data

/-- The function `extract_process_structure`: numbered steps, else bullet points as steps. -/
def extract_process_structure (content : String) : ProcessData :=
  let steps := findallSteps content.data.length content.data
  if !steps.isEmpty then
    { process_type := "linear",
      steps := steps.map fun s => String.mk (stripC s),
      total_steps := steps.length }
  else
    let points := extract_bullet_points content
    { process_type := "linear", steps := points, total_steps := points.length }

/-! ### Content classifier (`analyze_content_for_optimal_layout`)

The eight checks run unconditionally in source order over one shared analysis
record; each is embedded as a function `String → String → Analysis → Analysis`
taking `(content, slide_title)`. -/

/-- The default record the classifier starts from. -/
def classifierDefault : Analysis :=
  { layout_type := "content", slide_layout_index := 1, visual_elements := [],
    reasoning := "", enhancements := [], content_structure := .empty }

/-- Keyword list of classifier check 1 (verbatim, with the duplicate). -/
def comparisonKeywords : List (List Char) :=
  ["vs".data, "versus".data, "compared to".data, "compared with".data,
   "difference between".data, "versus".data]

/-- Check 1: comparison content. -/
def rule_comparison (content slide_title : String) (a : Analysis) : Analysis :=
  if comparisonKeywords.any fun kw =>
      isSubstrC kw (lowerC content.data) || isSubstrC kw (lowerC slide_title.data) then
    { a with layout_type := "comparison", slide_layout_index := 4,
             reasoning := "Contains comparison keywords - using side-by-side layout",
             enhancements := a.enhancements ++ ["side_by_side_layout"],
             content_structure := .comparison (extract_comparison_structure content) }
  else a

/-- The `numbers_found` list of classifier check 2: the six findall results
concatenated in source order (all over the lowered content). -/
def numbersFound (contentLower : List Char) : List (List Char) :=
  findallPercent contentLower.length contentLower ++
  findallPercentWord contentLower.length contentLower ++
  findallLitDigits ("increased by ".data) contentLower.length contentLower ++
  findallLitDigits ("decreased by ".data) contentLower.length contentLower ++
  findallLitDigits ("growth of ".data) contentLower.length contentLower ++
  findallLargeNum contentLower.length contentLower

/-- Check 2: numerical data and charts. -/
def rule_chart (content slide_title : String) (a : Analysis) : Analysis :=
  let numbers_found := numbersFound (lowerC content.data)
  if 2 ≤ numbers_found.length then
    { a with layout_type := "chart", slide_layout_index := 1,
             reasoning := "Found " ++ toString numbers_found.length ++
               " numerical data points - adding chart visualization",
             enhancements := a.enhancements ++ ["data_visualization"],
             visual_elements := a.visual_elements ++ ["chart"],
             content_structure := .chart (extract_chart_data content) }
  else a

/-- Keyword list of classifier check 3. -/
def processKeywords : List (List Char) :=
  ["step".data, "process".data, "flow".data, "first".data, "then".data,
   "next".data, "finally".data, "stage".data, "phase".data]

/-- Check 3: process/step content. -/
def rule_process (content slide_title : String) (a : Analysis) : Analysis :=
  let cl := lowerC content.data
  if (processKeywords.any fun kw => isSubstrC kw cl) ||
      (containsDigitDot cl || containsLitDigit ("step ".data) cl ||
        containsLitDigit ("phase ".data) cl) then
    { a with layout_type := "process", slide_layout_index := 1,
             reasoning := "Contains process or step-by-step content - using SmartArt process flow",
             enhancements := a.enhancements ++ ["smartart_flow"],
             visual_elements := a.visual_elements ++ ["smartart"],
             content_structure := .process (extract_process_structure content) }
  else a

/-- Keyword list of classifier check 4. -/
def sectionKeywords : List (List Char) :=
  ["overview".data, "introduction".data, "summary".data, "conclusion".data,
   "key points".data, "main points".data]

/-- Check 4: section headers (the title alone decides). -/
def rule_section (content slide_title : String) (a : Analysis) : Analysis :=
  if sectionKeywords.any fun kw => isSubstrC kw (lowerC slide_title.data) then
    { a with layout_type := "section", slide_layout_index := 2,
             reasoning := "Section header detected - using section layout",
             enhancements := a.enhancements ++ ["section_header"] }
  else a

/-- Check 5: two-column content (`content.count('\n') >= 4` and at least six
lines, midpoint split, both halves longer than 20 characters). -/
def rule_two_column (content slide_title : String) (a : Analysis) : Analysis :=
  if 4 ≤ content.data.count '\n' ∧ 6 ≤ (splitNl content.data).length then
    let lines := splitNl content.data
    let mid_point := lines.length / 2
    let left_content := joinNl (lines.take mid_point)
    let right_content := joinNl (lines.drop mid_point)
    if 20 < left_content.length ∧ 20 < right_content.length then
      { a with layout_type := "two_column", slide_layout_index := 3,
               reasoning := "Content can be split into two balanced columns",
               enhancements := a.enhancements ++ ["two_column_layout"],
               content_structure := .twoColumn ⟨left_content⟩ ⟨right_content⟩ }
    else a
  else a

/-- Keyword list of classifier check 6. -/
def titleOnlyWords : List (List Char) :=
  ["key".data, "main".data, "important".data, "critical".data]

/-- Check 6: short impactful content. -/
def rule_title_only (content slide_title : String) (a : Analysis) : Analysis :=
  if (stripC content.data).length < 50 ∧
      (titleOnlyWords.any fun w => isSubstrC w (lowerC content.data)) = true then
    { a with layout_type := "title_only", slide_layout_index := 5,
             reasoning := "Short, impactful content - using title-only layout for emphasis",
             enhancements := a.enhancements ++ ["title_only_emphasis"] }
  else a

/-- Keyword list of classifier check 7. -/
def captionWords : List (List Char) :=
  ["diagram".data, "graph".data, "chart".data, "image".data, "picture".data,
   "visual".data, "illustration".data]

/-- Check 7: content that mentions visual elements. -/
def rule_caption (content slide_title : String) (a : Analysis) : Analysis :=
  if captionWords.any fun w => isSubstrC w (lowerC content.data) then
    { a with layout_type := "content_with_caption", slide_layout_index := 7,
             reasoning := "Content mentions visual elements - using caption layout",
             enhancements := a.enhancements ++ ["caption_layout"],
             visual_elements := a.visual_elements ++ ["image_placeholder"] }
  else a

/-- Keyword list of classifier check 8. -/
def blankTitleWords : List (List Char) :=
  ["diagram".data, "flowchart".data, "timeline".data, "mind map".data]

/-- Check 8: blank layout for custom graphics. -/
def rule_blank (content slide_title : String) (a : Analysis) : Analysis :=
  if (stripC content.data).length < 20 ∧
      (blankTitleWords.any fun w => isSubstrC w (lowerC slide_title.data)) = true then
    { a with layout_type := "blank", slide_layout_index := 6,
             reasoning := "Minimal content with diagram title - using blank layout for custom graphics",
             enhancements := a.enhancements ++ ["blank_custom_graphics"] }
  else a

/-- The classifier `analyze_content_for_optimal_layout(content, slide_title)`: the eight
checks applied in source order to the default record. -/
def analyze_content_for_optimal_layout (content slide_title : String) : Analysis :=
  rule_blank content slide_title
    (rule_caption content slide_title
      (rule_title_only content slide_title
        (rule_two_column content slide_title
          (rule_section content slide_title
            (rule_process content slide_title
              (rule_chart content slide_title
                (rule_comparison content slide_title classifierDefault)))))))

/-! ### Slide assembly (`create_slide_with_smart_layout` and helpers)

A built slide is embedded as its title plus the list of
`(placeholder index, paragraph texts)` writes the helpers perform;
`nPlaceholders` is the placeholder count (`len(slide.placeholders)`) the
renderer-side layout exposes for the chosen slot.  Shape insertions
(`add_chart`, `add_smartart`) belong to the external renderer: `add_chart`
is guarded by `if chart_data:` on `data_points`, which `extract_chart_data`
always leaves empty, and `slide.shapes.add_smartart` does not exist in
python-pptx, so the bare `except:` always takes the bullet fallback. -/

/-- The writes of one placeholder fill. -/
abbrev SlideAction := Nat × List String

/-- A built slide: the title text and the placeholder writes in order. -/
structure SlideBuild where
  title : String
  body : List SlideAction
deriving Repr, DecidableEq

/-- The helper `add_text_to_placeholder`: one paragraph per stripped line. -/
def add_text_paragraphs (text : String) : List String :=
  (splitNl text.data).map fun l => String.mk (stripC l)

/-- Dictionary access `content_structure.get("left_side", [])` and friends. -/
def getComparisonSides : ContentStructure → List String × List String
  | .comparison d => (d.left_side, d.right_side)
  | _ => ([], [])

/-- The helper `create_comparison_content`: writes only when at least three
placeholders exist; otherwise it does nothing at all. -/
def create_comparison_content (nPlaceholders : Nat) (cs : ContentStructure) :
    List SlideAction :=
  if 3 ≤ nPlaceholders then
    [(1, (getComparisonSides cs).1), (2, (getComparisonSides cs).2)]
  else []

/-- The helper `create_standard_content`: bullet points when any are found, else the
plain-text fallback; nothing with fewer than two placeholders. -/
def create_standard_content (nPlaceholders : Nat) (content : String) :
    List SlideAction :=
  if 2 ≤ nPlaceholders then
    let points := extract_bullet_points content
    if !points.isEmpty then [(1, points)] else [(1, add_text_paragraphs content)]
  else []

/-- The helper `create_chart_content`: the chart shape is never added (see above);
the bullet points go below where a body placeholder exists. -/
def create_chart_content (nPlaceholders : Nat) (content : String) :
    List SlideAction :=
  if 2 ≤ nPlaceholders then [(1, extract_bullet_points content)] else []

/-- Dictionary access `content_structure.get("steps", [])`. -/
def getSteps : ContentStructure → List String
  | .process d => d.steps
  | _ => []

/-- The helper `create_process_content`: the SmartArt attempt always raises (no such
python-pptx API), so the bullet fallback runs whenever steps exist. -/
def create_process_content (nPlaceholders : Nat) (cs : ContentStructure) :
    List SlideAction :=
  let steps := getSteps cs
  if !steps.isEmpty then
    if 2 ≤ nPlaceholders then [(1, steps)] else []
  else []

/-- Dictionary access `content_structure.get("left_column", "")`/right. -/
def getColumns : ContentStructure → String × String
  | .twoColumn left right => (left, right)
  | _ => ("", "")

/-- The helper `create_two_column_content`. -/
def create_two_column_content (nPlaceholders : Nat) (cs : ContentStructure) :
    List SlideAction :=
  if 3 ≤ nPlaceholders then
    [(1, add_text_paragraphs (getColumns cs).1),
     (2, add_text_paragraphs (getColumns cs).2)]
  else []

/-- The helper `create_caption_content`: the single text write, truncated past 200
characters. -/
def create_caption_content (nPlaceholders : Nat) (content : String) :
    List SlideAction :=
  if 2 ≤ nPlaceholders then
    [(1, [if 200 < content.length then String.mk (content.data.take 200) ++ "..."
          else content])]
  else []

/-- The builder `create_slide_with_smart_layout`: sets the title and dispatches on
`layout_type`.  The `except IndexError` branch concerns the renderer's layout
list and is unreachable for the slot indices the classifier emits (0–7, all
present in the default template). -/
def create_slide_with_smart_layout (nPlaceholders : Nat) (title content : String)
    (layout_analysis : Analysis) : SlideBuild :=
  let layout_type := layout_analysis.layout_type
  let content_structure := layout_analysis.content_structure
  let body :=
    if layout_type = "comparison" then create_comparison_content nPlaceholders content_structure
    else if layout_type = "chart" then create_chart_content nPlaceholders content
    else if layout_type = "process" then create_process_content nPlaceholders content_structure
    else if layout_type = "two_column" then create_two_column_content nPlaceholders content_structure
    else if layout_type = "title_only" then []
    else if layout_type = "content_with_caption" then create_caption_content nPlaceholders content
    else if layout_type = "blank" then []
    else create_standard_content nPlaceholders content
  { title := title, body := body }

/-! ### Derived definitions used by the statements -/

/-- Python `'\n'.join` at the `String` level. -/
def joinLinesS (ls : List String) : String := ⟨joinNl (ls.map String.data)⟩

/-- The first keyword of the extractor's ordered list occurring in the
lowered content — the keyword `extract_comparison_structure` splits on. -/
def firstMatchingKeyword (lower : List Char) : Option (List Char) :=
  comparisonSplitKeywords.find? fun kw => isSubstrC kw lower

/-- The nine `(layout_type, slide_layout_index)` pairs any classifier run can
end on: the default pair plus one pair per rule. -/
def allowedPairs : List (String × Nat) :=
  [("content", 1), ("comparison", 4), ("chart", 1), ("process", 1),
   ("section", 2), ("two_column", 3), ("title_only", 5),
   ("content_with_caption", 7), ("blank", 6)]

/-- The eight classifier checks in source order, each with the
`layout_type`/`slide_layout_index` constants it writes when it fires. -/
def ruleTable : List ((String → String → Analysis → Analysis) × String × Nat) :=
  [(rule_comparison, "comparison", 4), (rule_chart, "chart", 1),
   (rule_process, "process", 1), (rule_section, "section", 2),
   (rule_two_column, "two_column", 3), (rule_title_only, "title_only", 5),
   (rule_caption, "content_with_caption", 7), (rule_blank, "blank", 6)]

/-- Head of a character list avoids the marker cleanup class. -/
def headNotMarker : List Char → Bool
  | [] => true
  | c :: _ => !markerClass c

/-- Last character of a list is not Python whitespace. -/
def lastNotWs (l : List Char) : Bool :=
  match l.getLast? with
  | none => true
  | some c => !isPyWs c

/-- An already-clean point string: non-empty, newline-free, not starting in
the marker class, not ending in whitespace, and containing one of the
extractor's trigger words (so that a second pass selects it again). -/
def CleanPoint (p : String) : Prop :=
  p.data ≠ [] ∧ '\n' ∉ p.data ∧ headNotMarker p.data = true ∧
    lastNotWs p.data = true ∧
    (bulletTriggerWords.any fun w => isSubstrC w (lowerC p.data)) = true

instance (p : String) : Decidable (CleanPoint p) := by
  unfold CleanPoint; infer_instance

/-! ## Helper lemmas -/

/-- The accumulator loop of `extract_bullet_points` is the `filterMap` of
its per-line body. -/
theorem foldl_bulletSelect (lines : List (List Char)) (acc : List (List Char)) :
    lines.foldl
      (fun points line =>
        match bulletSelect line with
        | some p => points ++ [p]
        | none => points) acc
      = acc ++ lines.filterMap bulletSelect := by
  induction lines generalizing acc with
  | nil => simp
  | cons h t ih =>
    cases hb : bulletSelect h with
    | none => simp [List.foldl_cons, hb, ih, List.filterMap_cons]
    | some p => simp [List.foldl_cons, hb, ih, List.filterMap_cons]

theorem extract_bullet_points_eq_filterMap (text : String) :
    extract_bullet_points text
      = ((splitNl text.data).filterMap bulletSelect).map String.mk := by
  unfold extract_bullet_points
  rw [foldl_bulletSelect]
  simp

/-- Check 1 either leaves the record unchanged or writes its constants;
it never touches `visual_elements`. -/
theorem rule_comparison_cases (c t : String) (a : Analysis) :
    (∃ added, (rule_comparison c t a).visual_elements = a.visual_elements ++ added)
    ∧ (rule_comparison c t a = a
        ∨ ((rule_comparison c t a).layout_type = "comparison"
            ∧ (rule_comparison c t a).slide_layout_index = 4)) := by
  unfold rule_comparison
  split
  · exact ⟨⟨[], by simp⟩, Or.inr ⟨rfl, rfl⟩⟩
  · exact ⟨⟨[], by simp⟩, Or.inl rfl⟩

/-- Check 2 either leaves the record unchanged or writes its constants and
appends `"chart"`. -/
theorem rule_chart_cases (c t : String) (a : Analysis) :
    (∃ added, (rule_chart c t a).visual_elements = a.visual_elements ++ added)
    ∧ (rule_chart c t a = a
        ∨ ((rule_chart c t a).layout_type = "chart"
            ∧ (rule_chart c t a).slide_layout_index = 1)) := by
  simp only [rule_chart]
  split
  · exact ⟨⟨["chart"], rfl⟩, Or.inr ⟨rfl, rfl⟩⟩
  · exact ⟨⟨[], by simp⟩, Or.inl rfl⟩

/-- Check 3 either leaves the record unchanged or writes its constants and
appends `"smartart"`. -/
theorem rule_process_cases (c t : String) (a : Analysis) :
    (∃ added, (rule_process c t a).visual_elements = a.visual_elements ++ added)
    ∧ (rule_process c t a = a
        ∨ ((rule_process c t a).layout_type = "process"
            ∧ (rule_process c t a).slide_layout_index = 1)) := by
  simp only [rule_process]
  split
  · exact ⟨⟨["smartart"], rfl⟩, Or.inr ⟨rfl, rfl⟩⟩
  · exact ⟨⟨[], by simp⟩, Or.inl rfl⟩

/-- Check 4 either leaves the record unchanged or writes its constants. -/
theorem rule_section_cases (c t : String) (a : Analysis) :
    (∃ added, (rule_section c t a).visual_elements = a.visual_elements ++ added)
    ∧ (rule_section c t a = a
        ∨ ((rule_section c t a).layout_type = "section"
            ∧ (rule_section c t a).slide_layout_index = 2)) := by
  unfold rule_section
  split
  · exact ⟨⟨[], by simp⟩, Or.inr ⟨rfl, rfl⟩⟩
  · exact ⟨⟨[], by simp⟩, Or.inl rfl⟩

/-- Check 5 either leaves the record unchanged or writes its constants. -/
theorem rule_two_column_cases (c t : String) (a : Analysis) :
    (∃ added, (rule_two_column c t a).visual_elements = a.visual_elements ++ added)
    ∧ (rule_two_column c t a = a
        ∨ ((rule_two_column c t a).layout_type = "two_column"
            ∧ (rule_two_column c t a).slide_layout_index = 3)) := by
  simp only [rule_two_column]
  split
  · split
    · exact ⟨⟨[], by simp⟩, Or.inr ⟨rfl, rfl⟩⟩
    · exact ⟨⟨[], by simp⟩, Or.inl rfl⟩
  · exact ⟨⟨[], by simp⟩, Or.inl rfl⟩

/-- Check 6 either leaves the record unchanged or writes its constants. -/
theorem rule_title_only_cases (c t : String) (a : Analysis) :
    (∃ added, (rule_title_only c t a).visual_elements = a.visual_elements ++ added)
    ∧ (rule_title_only c t a = a
        ∨ ((rule_title_only c t a).layout_type = "title_only"
            ∧ (rule_title_only c t a).slide_layout_index = 5)) := by
  unfold rule_title_only
  split
  · exact ⟨⟨[], by simp⟩, Or.inr ⟨rfl, rfl⟩⟩
  · exact ⟨⟨[], by simp⟩, Or.inl rfl⟩

/-- Check 7 either leaves the record unchanged or writes its constants and
appends `"image_placeholder"`. -/
theorem rule_caption_cases (c t : String) (a : Analysis) :
    (∃ added, (rule_caption c t a).visual_elements = a.visual_elements ++ added)
    ∧ (rule_caption c t a = a
        ∨ ((rule_caption c t a).layout_type = "content_with_caption"
            ∧ (rule_caption c t a).slide_layout_index = 7)) := by
  unfold rule_caption
  split
  · exact ⟨⟨["image_placeholder"], rfl⟩, Or.inr ⟨rfl, rfl⟩⟩
  · exact ⟨⟨[], by simp⟩, Or.inl rfl⟩

/-- Check 8 either leaves the record unchanged or writes its constants. -/
theorem rule_blank_cases (c t : String) (a : Analysis) :
    (∃ added, (rule_blank c t a).visual_elements = a.visual_elements ++ added)
    ∧ (rule_blank c t a = a
        ∨ ((rule_blank c t a).layout_type = "blank"
            ∧ (rule_blank c t a).slide_layout_index = 6)) := by
  unfold rule_blank
  split
  · exact ⟨⟨[], by simp⟩, Or.inr ⟨rfl, rfl⟩⟩
  · exact ⟨⟨[], by simp⟩, Or.inl rfl⟩

theorem splitFirst_nil {sep : List Char} (hsep : sep ≠ []) :
    splitFirst sep [] = none := by
  cases sep with
  | nil => exact absurd rfl hsep
  | cons s ss =>
    have h : (s :: ss).isPrefixOf ([] : List Char) = false := rfl
    simp [splitFirst, h]

theorem splitFirst_length {sep l b a : List Char} (hsep : sep ≠ [])
    (h : splitFirst sep l = some (b, a)) : a.length < l.length := by
  induction l generalizing b a with
  | nil => rw [splitFirst_nil hsep] at h; exact absurd h (by simp)
  | cons c t ih =>
    rw [splitFirst] at h
    by_cases hp : sep.isPrefixOf (c :: t)
    · rw [if_pos hp] at h
      injection h with h'
      injection h' with hb ha
      subst ha
      have hlen : 1 ≤ sep.length := by
        cases sep with
        | nil => exact absurd rfl hsep
        | cons s ss => simp
      rw [List.length_drop]
      exact Nat.sub_lt (by simp) hlen
    · rw [if_neg hp] at h
      obtain ⟨p, hp1, hp2⟩ := Option.map_eq_some'.mp h
      have ha : a = p.2 := by
        have := congrArg Prod.snd hp2
        simpa using this.symm
      subst ha
      exact Nat.lt_succ_of_lt (ih hp1)

theorem pySplitF_fuel {sep : List Char} (hsep : sep ≠ []) :
    ∀ (f g : Nat) (l : List Char), l.length ≤ f → l.length ≤ g →
      pySplitF sep f l = pySplitF sep g l := by
  intro f
  induction f with
  | zero =>
    intro g l hf hg
    have : l = [] := List.eq_nil_of_length_eq_zero (Nat.le_zero.mp hf)
    subst this
    cases g with
    | zero => rfl
    | succ g => simp [pySplitF, splitFirst_nil hsep]
  | succ f ih =>
    intro g l hf hg
    cases g with
    | zero =>
      have : l = [] := List.eq_nil_of_length_eq_zero (Nat.le_zero.mp hg)
      subst this
      simp [pySplitF, splitFirst_nil hsep]
    | succ g =>
      rw [pySplitF, pySplitF]
      cases hsf : splitFirst sep l with
      | none => rfl
      | some p =>
        obtain ⟨b, a⟩ := p
        have hlt := splitFirst_length hsep hsf
        have ha : a.length ≤ f := Nat.lt_succ_iff.mp (Nat.lt_of_lt_of_le hlt hf)
        have hb : a.length ≤ g := Nat.lt_succ_iff.mp (Nat.lt_of_lt_of_le hlt hg)
        show b :: pySplitF sep f a = b :: pySplitF sep g a
        rw [ih g a ha hb]

theorem pySplit_cons {sep l b a : List Char} (hsep : sep ≠ [])
    (h : splitFirst sep l = some (b, a)) :
    pySplit sep l = b :: pySplit sep a := by
  have hlt := splitFirst_length hsep h
  rw [pySplit, pySplit]
  cases hl : l.length with
  | zero => omega
  | succ m =>
    rw [pySplitF, h]
    have ha : a.length ≤ m := by omega
    show b :: pySplitF sep m a = b :: pySplitF sep a.length a
    rw [pySplitF_fuel hsep m a.length a ha (Nat.le_refl _)]

theorem pySplit_of_none {sep l : List Char} (h : splitFirst sep l = none) :
    pySplit sep l = [l] := by
  rw [pySplit]
  cases l.length with
  | zero => rfl
  | succ m => rw [pySplitF, h]

theorem pySplit_ne_nil (sep l : List Char) : pySplit sep l ≠ [] := by
  rw [pySplit]
  cases l.length with
  | zero => simp [pySplitF]
  | succ m =>
    rw [pySplitF]
    cases splitFirst sep l with
    | none => simp
    | some p => simp

theorem isSubstrC_iff_splitFirst (sep l : List Char) :
    isSubstrC sep l = true ↔ ∃ b a, splitFirst sep l = some (b, a) := by
  induction l with
  | nil =>
    by_cases hp : sep.isPrefixOf ([] : List Char) <;>
      simp [isSubstrC, splitFirst, hp]
  | cons c t ih =>
    by_cases hp : sep.isPrefixOf (c :: t)
    · simp [isSubstrC, splitFirst, hp]
    · rw [isSubstrC, splitFirst, if_neg hp]
      simp only [hp, Bool.false_or]
      rw [ih]
      constructor
      · rintro ⟨b, a, hsf⟩
        exact ⟨c :: b, a, by rw [hsf]; rfl⟩
      · rintro ⟨b, a, hsf⟩
        obtain ⟨p, hp1, hp2⟩ := Option.map_eq_some'.mp hsf
        exact ⟨p.1, p.2, by rw [hp1]⟩

/-- The keyword loop of `extract_comparison_structure` picks the first
keyword (in list order) occurring in the lowered content and fills the sides
from the first two pieces of the Python split. -/
theorem comparisonLoop_spec (lower : List Char) :
    ∀ kws : List (List Char), (∀ k ∈ kws, k ≠ []) →
    comparisonLoop lower kws =
      match kws.find? (fun kw => isSubstrC kw lower) with
      | none => { left_side := [], right_side := [], comparison_type := "general" }
      | some kw =>
        match pySplit kw lower with
        | p0 :: p1 :: _ =>
          { left_side := extract_bullet_points ⟨p0⟩,
            right_side := extract_bullet_points ⟨p1⟩,
            comparison_type := "general" }
        | _ => { left_side := [], right_side := [], comparison_type := "general" } := by
  intro kws
  induction kws with
  | nil => intro _; simp [comparisonLoop]
  | cons kw rest ih =>
    intro hk
    by_cases h : isSubstrC kw lower
    · have hkne : kw ≠ [] := hk kw (List.Mem.head _)
      obtain ⟨b, a, hsf⟩ := (isSubstrC_iff_splitFirst kw lower).mp h
      have hps := pySplit_cons hkne hsf
      cases hq : pySplit kw a with
      | nil => exact absurd hq (pySplit_ne_nil kw a)
      | cons q0 qrest =>
        simp only [comparisonLoop, List.find?, h, if_true, hps, hq]
    · rw [Bool.not_eq_true] at h
      simp only [comparisonLoop, List.find?, h, Bool.false_eq_true, if_false]
      exact ih fun k hm => hk k (List.Mem.tail _ hm)

theorem splitNl_ne_nil (l : List Char) : splitNl l ≠ [] := by
  induction l with
  | nil => simp [splitNl]
  | cons c t ih =>
    simp only [splitNl]
    split
    · simp
    · cases hr : splitNl t with
      | nil => simp
      | cons h t' => simp

theorem splitNl_no_nl : ∀ {l : List Char}, '\n' ∉ l → splitNl l = [l] := by
  intro l
  induction l with
  | nil => intro _; rfl
  | cons c t ih =>
    intro h
    have hc : ¬ c = '\n' := fun hc => h (hc ▸ List.Mem.head _)
    have ht : '\n' ∉ t := fun hm => h (List.Mem.tail _ hm)
    simp only [splitNl, if_neg hc, ih ht]

theorem splitNl_append {x : List Char} (r : List Char) (hx : '\n' ∉ x) :
    splitNl (x ++ '\n' :: r) = x :: splitNl r := by
  induction x with
  | nil => simp [splitNl]
  | cons c t ih =>
    have hc : ¬ c = '\n' := fun hc => hx (hc ▸ List.Mem.head _)
    have ht : '\n' ∉ t := fun hm => hx (List.Mem.tail _ hm)
    simp only [List.cons_append, splitNl, if_neg hc, List.append_eq, ih ht]

theorem splitNl_joinNl :
    ∀ ls : List (List Char), ls ≠ [] → (∀ l ∈ ls, '\n' ∉ l) →
      splitNl (joinNl ls) = ls := by
  intro ls
  induction ls with
  | nil => intro h; exact absurd rfl h
  | cons x rest ih =>
    intro _ hnl
    cases rest with
    | nil => exact splitNl_no_nl (hnl x (List.Mem.head _))
    | cons y t =>
      rw [joinNl, splitNl_append _ (hnl x (List.Mem.head _))]
      rw [ih (by simp) fun l hl => hnl l (List.Mem.tail _ hl)]

theorem dropWhile_eq_self_of_head {p : Char → Bool} {l : List Char}
    (h : ∀ c, l.head? = some c → p c = false) : l.dropWhile p = l := by
  cases l with
  | nil => rfl
  | cons c t => simp [List.dropWhile_cons, h c rfl]

theorem stripC_eq_self {l : List Char}
    (h1 : ∀ c, l.head? = some c → isPyWs c = false)
    (h2 : ∀ c, l.getLast? = some c → isPyWs c = false) : stripC l = l := by
  rw [stripC, dropWhile_eq_self_of_head h1]
  have h2' : ∀ c, l.reverse.head? = some c → isPyWs c = false := by
    intro c hc
    rw [List.head?_reverse] at hc
    exact h2 c hc
  rw [dropWhile_eq_self_of_head h2', List.reverse_reverse]

theorem isPyWs_eq_false_of_markerClass {c : Char} (h : markerClass c = false) :
    isPyWs c = false := by
  cases hw : isPyWs c with
  | false => rfl
  | true => rw [markerClass, hw] at h; simp at h

/-- A clean point prefixed with `"- "` is selected and stripped back to the
point itself. -/
theorem bulletSelect_dashed {p : List Char} (hne : p ≠ [])
    (hhead : headNotMarker p = true) (hlast : lastNotWs p = true) :
    bulletSelect ('-' :: ' ' :: p) = some p := by
  obtain ⟨c, t, rfl⟩ : ∃ c t, p = c :: t := by
    cases p with
    | nil => exact absurd rfl hne
    | cons c t => exact ⟨c, t, rfl⟩
  have hmc : markerClass c = false := by simpa [headNotMarker] using hhead
  have hstrip : stripC ('-' :: ' ' :: c :: t) = '-' :: ' ' :: c :: t := by
    apply stripC_eq_self
    · intro x hx
      simp only [List.head?_cons, Option.some.injEq] at hx
      subst hx; decide
    · intro x hx
      rw [List.getLast?_cons_cons, List.getLast?_cons_cons] at hx
      rw [lastNotWs, hx] at hlast
      simpa using hlast
  have h1 : markerClass '-' = true := rfl
  have h2 : markerClass ' ' = true := rfl
  have hclean : ('-' :: ' ' :: c :: t).dropWhile markerClass = c :: t := by
    simp [List.dropWhile_cons, h1, h2, hmc]
  simp only [bulletSelect, hstrip, hclean]
  rfl

/-- A clean point containing one of the trigger words is selected unchanged
when processed as a line of its own. -/
theorem bulletSelect_clean {p : List Char} (hne : p ≠ [])
    (hhead : headNotMarker p = true) (hlast : lastNotWs p = true)
    (hkw : (bulletTriggerWords.any fun w => isSubstrC w (lowerC p)) = true) :
    bulletSelect p = some p := by
  obtain ⟨c, t, rfl⟩ : ∃ c t, p = c :: t := by
    cases p with
    | nil => exact absurd rfl hne
    | cons c t => exact ⟨c, t, rfl⟩
  have hmc : markerClass c = false := by simpa [headNotMarker] using hhead
  have hwc : isPyWs c = false := isPyWs_eq_false_of_markerClass hmc
  have hstrip : stripC (c :: t) = c :: t := by
    apply stripC_eq_self
    · intro x hx
      simp only [List.head?_cons, Option.some.injEq] at hx
      subst hx; exact hwc
    · intro x hx
      rw [lastNotWs, hx] at hlast
      simpa using hlast
  have hclean : (c :: t).dropWhile markerClass = c :: t := by
    simp [List.dropWhile_cons, hmc]
  simp only [bulletSelect, hstrip, hkw, hclean, Bool.or_true, List.isEmpty_cons,
    Bool.not_false, Bool.and_self, if_true]

theorem filterMap_eq_map_of_all {α β : Type} (f : α → Option β) (g : α → β) :
    ∀ l : List α, (∀ a ∈ l, f a = some (g a)) → l.filterMap f = l.map g := by
  intro l h
  induction l with
  | nil => rfl
  | cons a t ih =>
    rw [List.filterMap_cons, h a (List.Mem.head _), List.map_cons,
      ih fun x hx => h x (List.Mem.tail _ hx)]

/-- Extraction over joined lines built by mapping `f` over point strings:
when every line is newline-free and selected back to its point, the whole
extraction returns the original points. -/
theorem extract_of_map (f : String → List Char) (ps : List String) (hps : ps ≠ [])
    (hnl : ∀ p ∈ ps, '\n' ∉ f p)
    (hsel : ∀ p ∈ ps, bulletSelect (f p) = some p.data) :
    extract_bullet_points ⟨joinNl (ps.map f)⟩ = ps := by
  have hmapne : ps.map f ≠ [] := by simpa using hps
  have hnl' : ∀ l ∈ ps.map f, '\n' ∉ l := by
    intro l hl
    obtain ⟨p, hp, rfl⟩ := List.mem_map.mp hl
    exact hnl p hp
  rw [extract_bullet_points_eq_filterMap]
  show ((splitNl (joinNl (ps.map f))).filterMap bulletSelect).map String.mk = ps
  rw [splitNl_joinNl _ hmapne hnl', List.filterMap_map,
    filterMap_eq_map_of_all (bulletSelect ∘ f) String.data ps hsel, List.map_map]
  have hid : (String.mk ∘ String.data) = id := funext fun s => rfl
  rw [hid, List.map_id]

theorem stripC_subset (l : List Char) : stripC l ⊆ l := by
  intro c hc
  rw [stripC, List.mem_reverse] at hc
  have h1 := (List.dropWhile_sublist isPyWs).subset hc
  rw [List.mem_reverse] at h1
  exact (List.dropWhile_sublist isPyWs).subset h1

theorem splitNl_part_subset :
    ∀ {l : List Char} {part : List Char}, part ∈ splitNl l → part ⊆ l := by
  intro l
  induction l with
  | nil =>
    intro part hp
    simp only [splitNl, List.mem_singleton] at hp
    subst hp
    exact fun _ h => h
  | cons c t ih =>
    intro part hp
    simp only [splitNl] at hp
    by_cases hc : c = '\n'
    · rw [if_pos hc] at hp
      rcases List.mem_cons.mp hp with rfl | hp
      · exact List.nil_subset _
      · exact (ih hp).trans (List.subset_cons_self c t)
    · rw [if_neg hc] at hp
      cases hr : splitNl t with
      | nil => exact absurd hr (splitNl_ne_nil t)
      | cons h0 t' =>
        rw [hr] at hp
        rcases List.mem_cons.mp hp with rfl | hp
        · intro x hx
          rcases List.mem_cons.mp hx with rfl | hx
          · exact List.Mem.head _
          · exact List.Mem.tail _ (ih (hr ▸ List.Mem.head _) hx)
        · exact (ih (hr ▸ List.Mem.tail _ hp)).trans (List.subset_cons_self c t)

/-- Every extracted bullet point is built from characters of the input. -/
theorem extract_bullet_points_subset (text p : String)
    (hp : p ∈ extract_bullet_points text) : p.data ⊆ text.data := by
  rw [extract_bullet_points_eq_filterMap] at hp
  obtain ⟨pl, hpl, rfl⟩ := List.mem_map.mp hp
  obtain ⟨line, hline, hsel⟩ := List.mem_filterMap.mp hpl
  have hsub : pl ⊆ stripC line := by
    simp only [bulletSelect] at hsel
    split at hsel
    · split at hsel
      · injection hsel with h'
        subst h'
        exact (List.dropWhile_sublist markerClass).subset
      · cases hsel
    · cases hsel
  exact fun c hc =>
    splitNl_part_subset hline (stripC_subset line (hsub hc))

theorem splitFirst_subset {sep : List Char} :
    ∀ {l b a : List Char}, splitFirst sep l = some (b, a) → b ⊆ l ∧ a ⊆ l := by
  intro l
  induction l with
  | nil =>
    intro b a h
    rw [splitFirst] at h
    split at h
    · injection h with h'
      injection h' with hb ha
      subst hb; subst ha
      exact ⟨List.nil_subset _, List.nil_subset _⟩
    · cases h
  | cons c t ih =>
    intro b a h
    rw [splitFirst] at h
    split at h
    · injection h with h'
      injection h' with hb ha
      subst hb; subst ha
      exact ⟨List.nil_subset _, List.drop_subset _ _⟩
    · obtain ⟨q, hq1, hq2⟩ := Option.map_eq_some'.mp h
      obtain ⟨hb, ha⟩ : c :: q.1 = b ∧ q.2 = a := by
        constructor
        · exact congrArg Prod.fst hq2
        · exact congrArg Prod.snd hq2
      subst hb; subst ha
      obtain ⟨ih1, ih2⟩ := ih hq1
      constructor
      · intro x hx
        rcases List.mem_cons.mp hx with rfl | hx
        · exact List.Mem.head _
        · exact List.Mem.tail _ (ih1 hx)
      · exact ih2.trans (List.subset_cons_self c t)

theorem pySplitF_part_subset {sep : List Char} :
    ∀ (fuel : Nat) (l : List Char), ∀ part ∈ pySplitF sep fuel l, part ⊆ l := by
  intro fuel
  induction fuel with
  | zero =>
    intro l part hp
    simp only [pySplitF, List.mem_singleton] at hp
    subst hp
    exact fun _ h => h
  | succ fuel ih =>
    intro l part hp
    rw [pySplitF] at hp
    cases hsf : splitFirst sep l with
    | none =>
      rw [hsf] at hp
      simp only [List.mem_singleton] at hp
      subst hp
      exact fun _ h => h
    | some q =>
      obtain ⟨b, a⟩ := q
      rw [hsf] at hp
      rcases List.mem_cons.mp hp with rfl | hp
      · exact (splitFirst_subset hsf).1
      · exact (ih a part hp).trans (splitFirst_subset hsf).2

theorem pySplit_part_subset {sep l part : List Char} (hp : part ∈ pySplit sep l) :
    part ⊆ l :=
  pySplitF_part_subset l.length l part hp

/-! ## Claims -/

/-- Claim C7: the bullet extractor returns, in source order, exactly the
lines selected by the marker-or-trigger-word test, each stripped of
surrounding whitespace and leading markers, empty results dropped — and it
never returns more entries than the input has lines.  The per-line test
`bulletSelect` strips the line, selects it when it starts with one of
`•`, `-`, `*`, `1.`, `2.`, `3.` or contains (case-insensitively) one of
`important`/`key`/`main`/`primary`, cleans the leading marker run and drops
empty results; `filterMap` preserves source order. -/
theorem bullet_extractor_characterization (text : String) :
    extract_bullet_points text
      = ((splitNl text.data).filterMap bulletSelect).map String.mk
    ∧ (extract_bullet_points text).length ≤ (splitNl text.data).length := by
  refine ⟨extract_bullet_points_eq_filterMap text, ?_⟩
  rw [extract_bullet_points_eq_filterMap text, List.length_map]
  exact List.length_filterMap_le _ _

/-- Claim C2, counterexample: on the spec's own example the final
`layout_type` is not `section` — rule 7 also fires (the content contains
the word `diagram`) and overwrites rule 4's choice. -/
theorem override_example_cx :
    (analyze_content_for_optimal_layout
        "diagram of our 3-step process: 1. Plan 2. Build 3. Ship" "Overview").layout_type
      ≠ "section"
    ∧ (analyze_content_for_optimal_layout
        "diagram of our 3-step process: 1. Plan 2. Build 3. Ship" "Overview").layout_type
      = "content_with_caption" := by
  constructor <;> decide

/-- Claim C2, amended: on content
`"diagram of our 3-step process: 1. Plan 2. Build 3. Ship"` with title
`"Overview"` the classifier ends with `layout_type = content_with_caption`
and `slide_layout_index = 7` (rule 7, triggered by "diagram" in the content,
overwrites rule 4's `section`, which had overwritten rule 3's `process`),
while `visual_elements` still carries `"smartart"` from rule 3 (followed by
`"image_placeholder"` from rule 7). -/
theorem override_example_caption :
    (analyze_content_for_optimal_layout
        "diagram of our 3-step process: 1. Plan 2. Build 3. Ship" "Overview").layout_type
      = "content_with_caption"
    ∧ (analyze_content_for_optimal_layout
        "diagram of our 3-step process: 1. Plan 2. Build 3. Ship" "Overview").slide_layout_index
      = 7
    ∧ (analyze_content_for_optimal_layout
        "diagram of our 3-step process: 1. Plan 2. Build 3. Ship" "Overview").visual_elements
      = ["smartart", "image_placeholder"] := by
  refine ⟨?_, ?_, ?_⟩ <;> decide

/-- Claim C6: on every input (empty, non-ASCII or pathological included) the
classifier returns exactly one decision whose
`(layout_type, slide_layout_index)` pair is one of the nine pairs written by
the default record or by a single rule — so `layout_type` lies in the closed
set, `slide_layout_index` lies in `[0, 7]`, and both fields are always set
together by the same rule, never partially. -/
theorem classifier_total_and_paired (content slide_title : String) :
    ((analyze_content_for_optimal_layout content slide_title).layout_type,
      (analyze_content_for_optimal_layout content slide_title).slide_layout_index)
      ∈ allowedPairs
    ∧ (analyze_content_for_optimal_layout content slide_title).slide_layout_index ≤ 7 := by
  have key : ∀ (r : String → String → Analysis → Analysis) (lt : String) (si : Nat)
      (a : Analysis),
      (r content slide_title a = a
        ∨ ((r content slide_title a).layout_type = lt
            ∧ (r content slide_title a).slide_layout_index = si)) →
      (lt, si) ∈ allowedPairs →
      (a.layout_type, a.slide_layout_index) ∈ allowedPairs →
      ((r content slide_title a).layout_type,
        (r content slide_title a).slide_layout_index) ∈ allowedPairs := by
    rintro r lt si a (heq | ⟨h1, h2⟩) hmem ha
    · rw [heq]; exact ha
    · rw [h1, h2]; exact hmem
  have i0 : (classifierDefault.layout_type, classifierDefault.slide_layout_index)
      ∈ allowedPairs := by decide
  have i1 := key _ _ _ _
    (rule_comparison_cases content slide_title classifierDefault).2 (by decide) i0
  have i2 := key _ _ _ _
    (rule_chart_cases content slide_title _).2 (by decide) i1
  have i3 := key _ _ _ _
    (rule_process_cases content slide_title _).2 (by decide) i2
  have i4 := key _ _ _ _
    (rule_section_cases content slide_title _).2 (by decide) i3
  have i5 := key _ _ _ _
    (rule_two_column_cases content slide_title _).2 (by decide) i4
  have i6 := key _ _ _ _
    (rule_title_only_cases content slide_title _).2 (by decide) i5
  have i7 := key _ _ _ _
    (rule_caption_cases content slide_title _).2 (by decide) i6
  have i8 := key _ _ _ _
    (rule_blank_cases content slide_title _).2 (by decide) i7
  have hmem : ((analyze_content_for_optimal_layout content slide_title).layout_type,
      (analyze_content_for_optimal_layout content slide_title).slide_layout_index)
      ∈ allowedPairs := i8
  refine ⟨hmem, ?_⟩
  have hle : ∀ q ∈ allowedPairs, q.2 ≤ 7 := by decide
  exact hle _ hmem

/-- Claim C5: the classifier is the in-order application of all eight checks
to the single default record (no short-circuiting); every check either
leaves `layout_type`/`slide_layout_index`/`reasoning` untouched or
overwrites `layout_type` and `slide_layout_index` together with its own
constants, while only ever appending to `visual_elements`; consequently a
decision can carry a `visual_elements` entry from a rule whose layout choice
a later rule superseded. -/
theorem classifier_override_accumulate :
    (∀ content slide_title,
      analyze_content_for_optimal_layout content slide_title
        = ruleTable.foldl (fun a e => e.1 content slide_title a) classifierDefault)
    ∧ (∀ e ∈ ruleTable, ∀ content slide_title a,
        (∃ added, (e.1 content slide_title a).visual_elements
            = a.visual_elements ++ added)
        ∧ (((e.1 content slide_title a).layout_type = a.layout_type
              ∧ (e.1 content slide_title a).slide_layout_index = a.slide_layout_index
              ∧ (e.1 content slide_title a).reasoning = a.reasoning)
            ∨ ((e.1 content slide_title a).layout_type = e.2.1
              ∧ (e.1 content slide_title a).slide_layout_index = e.2.2)))
    ∧ (∃ content slide_title,
        (analyze_content_for_optimal_layout content slide_title).layout_type ≠ "process"
        ∧ "smartart" ∈ (analyze_content_for_optimal_layout content slide_title).visual_elements) := by
  refine ⟨fun content slide_title => rfl, ?_, ?_⟩
  · intro e he content slide_title a
    have package : ∀ (r : String → String → Analysis → Analysis),
        ((∃ added, (r content slide_title a).visual_elements = a.visual_elements ++ added)
          ∧ (r content slide_title a = a
              ∨ ((r content slide_title a).layout_type = e.2.1
                  ∧ (r content slide_title a).slide_layout_index = e.2.2))) →
        (∃ added, (r content slide_title a).visual_elements = a.visual_elements ++ added)
        ∧ (((r content slide_title a).layout_type = a.layout_type
              ∧ (r content slide_title a).slide_layout_index = a.slide_layout_index
              ∧ (r content slide_title a).reasoning = a.reasoning)
            ∨ ((r content slide_title a).layout_type = e.2.1
              ∧ (r content slide_title a).slide_layout_index = e.2.2)) := by
      rintro r ⟨hv, heq | hset⟩
      · exact ⟨hv, Or.inl (by rw [heq]; exact ⟨rfl, rfl, rfl⟩)⟩
      · exact ⟨hv, Or.inr hset⟩
    rcases List.mem_cons.mp he with rfl | he
    · exact package _ (rule_comparison_cases content slide_title a)
    rcases List.mem_cons.mp he with rfl | he
    · exact package _ (rule_chart_cases content slide_title a)
    rcases List.mem_cons.mp he with rfl | he
    · exact package _ (rule_process_cases content slide_title a)
    rcases List.mem_cons.mp he with rfl | he
    · exact package _ (rule_section_cases content slide_title a)
    rcases List.mem_cons.mp he with rfl | he
    · exact package _ (rule_two_column_cases content slide_title a)
    rcases List.mem_cons.mp he with rfl | he
    · exact package _ (rule_title_only_cases content slide_title a)
    rcases List.mem_cons.mp he with rfl | he
    · exact package _ (rule_caption_cases content slide_title a)
    rcases List.mem_cons.mp he with rfl | he
    · exact package _ (rule_blank_cases content slide_title a)
    cases he
  · exact ⟨"diagram of our 3-step process: 1. Plan 2. Build 3. Ship", "",
      by decide, by decide⟩

/-- Claim C5, witness: the second component applied to check 3 at a concrete
input on which it fires. -/
theorem classifier_override_accumulate_witness :
    (∃ added, (rule_process "step one then two" "" classifierDefault).visual_elements
        = classifierDefault.visual_elements ++ added)
    ∧ (((rule_process "step one then two" "" classifierDefault).layout_type
          = classifierDefault.layout_type
        ∧ (rule_process "step one then two" "" classifierDefault).slide_layout_index
          = classifierDefault.slide_layout_index
        ∧ (rule_process "step one then two" "" classifierDefault).reasoning
          = classifierDefault.reasoning)
      ∨ ((rule_process "step one then two" "" classifierDefault).layout_type = "process"
        ∧ (rule_process "step one then two" "" classifierDefault).slide_layout_index = 1)) :=
  classifier_override_accumulate.2.1 (rule_process, "process", 1)
    (List.Mem.tail _ (List.Mem.tail _ (List.Mem.head _)))
    "step one then two" "" classifierDefault

/-- Claim C8, counterexample: the patterns of the number family overlap, so
the single numerical datum `"25%"` is counted twice (once by `\d+%`, once by
`\d+\s*(percent|%)`) and the chart rule does fire on it: the classifier ends
with `layout_type = chart`. -/
theorem chart_rule_single_datum_cx :
    (numbersFound (lowerC "25%".data)).length = 2
    ∧ (analyze_content_for_optimal_layout "25%" "").layout_type = "chart" := by
  constructor <;> decide

/-- Claim C8, amended: the chart rule fires exactly when the total number of
matches summed over the six patterns reaches 2; because the patterns
overlap, a lone percentage such as `25%` already counts as 2 and triggers
the chart layout. -/
theorem chart_rule_threshold (content slide_title : String) (a : Analysis) :
    (2 ≤ (numbersFound (lowerC content.data)).length →
      (rule_chart content slide_title a).layout_type = "chart"
      ∧ (rule_chart content slide_title a).slide_layout_index = 1
      ∧ (rule_chart content slide_title a).visual_elements
          = a.visual_elements ++ ["chart"])
    ∧ ((numbersFound (lowerC content.data)).length < 2 →
      rule_chart content slide_title a = a) := by
  constructor
  · intro h
    simp only [rule_chart, if_pos h]
    exact ⟨trivial, trivial, trivial⟩
  · intro h
    simp only [rule_chart, if_neg (Nat.not_le.mpr h)]

/-- Claim C8, witness: the threshold theorem applied on both sides — the
firing case at `"25%"` (count 2) and the idle case at `"plain prose"`
(count 0). -/
theorem chart_rule_threshold_witness :
    ((rule_chart "25%" "" classifierDefault).layout_type = "chart"
      ∧ (rule_chart "25%" "" classifierDefault).slide_layout_index = 1
      ∧ (rule_chart "25%" "" classifierDefault).visual_elements
          = classifierDefault.visual_elements ++ ["chart"])
    ∧ rule_chart "plain prose" "" classifierDefault = classifierDefault :=
  ⟨(chart_rule_threshold "25%" "" classifierDefault).1 (by decide),
   (chart_rule_threshold "plain prose" "" classifierDefault).2 (by decide)⟩

/-- Claim C1, counterexample: on content containing both a percentage and a
growth phrase the chart-data extractor returns `chart_type = "column"` with
the growth integers — the growth branch runs second and overwrites the pie
result, so percentage detection does not take priority. -/
theorem chart_data_growth_overrides_cx :
    percentMatches "Revenue grew by 10, representing 25%" ≠ []
    ∧ growthMatches "Revenue grew by 10, representing 25%" ≠ []
    ∧ (extract_chart_data "Revenue grew by 10, representing 25%").chart_type ≠ "pie"
    ∧ (extract_chart_data "Revenue grew by 10, representing 25%").chart_type = "column"
    ∧ (extract_chart_data "Revenue grew by 10, representing 25%").values = [10] := by
  refine ⟨?_, ?_, ?_, ?_, ?_⟩ <;> decide

/-- Claim C1, amended: in `extract_chart_data` the growth branch wins
whenever it matches — `chart_kind = column` with the growth integers as
values; the percentage branch yields `chart_kind = pie` with the percentage
integers only when no growth pattern matches. -/
theorem chart_data_priority (content : String) :
    (growthMatches content ≠ [] →
      (extract_chart_data content).chart_type = "column"
      ∧ (extract_chart_data content).values
          = (growthMatches content).map natOfDigits)
    ∧ (growthMatches content = [] → percentMatches content ≠ [] →
      (extract_chart_data content).chart_type = "pie"
      ∧ (extract_chart_data content).values
          = (percentMatches content).map natOfDigits) := by
  constructor
  · intro h
    have hb : (growthMatches content).isEmpty = false := by
      cases hg : growthMatches content with
      | nil => exact absurd hg h
      | cons x xs => rfl
    simp [extract_chart_data, hb]
  · intro h hp
    have hb : (growthMatches content).isEmpty = true := by rw [h]; rfl
    have hpb : (percentMatches content).isEmpty = false := by
      cases hg : percentMatches content with
      | nil => exact absurd hg hp
      | cons x xs => rfl
    simp [extract_chart_data, hb, hpb]

/-- Claim C1, witness: the priority theorem applied at a growth-only input
and at a percentage-only input. -/
theorem chart_data_priority_witness :
    ((extract_chart_data "grew by 7").chart_type = "column"
      ∧ (extract_chart_data "grew by 7").values
          = (growthMatches "grew by 7").map natOfDigits)
    ∧ ((extract_chart_data "25% here").chart_type = "pie"
      ∧ (extract_chart_data "25% here").values
          = (percentMatches "25% here").map natOfDigits) :=
  ⟨(chart_data_priority "grew by 7").1 (by decide),
   (chart_data_priority "25% here").2 (by decide) (by decide)⟩

/-- Claim C3, counterexample: for a comparison decision rendered into a slot
with 2 placeholders the builder writes no body at all, while the "content"
mapping would write the bullet points into the body placeholder — so the
claimed fallback to the content mapping does not happen below 3 placeholders. -/
theorem planner_comparison_two_placeholder_cx :
    (analyze_content_for_optimal_layout "- cats vs - dogs" "").layout_type = "comparison"
    ∧ (create_slide_with_smart_layout 2 "Pets" "- cats vs - dogs"
        (analyze_content_for_optimal_layout "- cats vs - dogs" "")).body = []
    ∧ create_standard_content 2 "- cats vs - dogs" = [(1, ["cats vs - dogs"])]
    ∧ (create_slide_with_smart_layout 2 "Pets" "- cats vs - dogs"
        (analyze_content_for_optimal_layout "- cats vs - dogs" "")).body
      ≠ create_standard_content 2 "- cats vs - dogs" := by
  refine ⟨?_, ?_, ?_, ?_⟩ <;> decide

/-- Claim C3, amended: for `layout_type` comparison or two_column with fewer
than 3 available placeholders the builder silently emits no body writes at
all (title only) — never an error; this coincides with the default "content"
mapping only when that mapping is also empty, in particular for an available
placeholder count of 1, where both emit no body. -/
theorem planner_small_slot_empty (a : Analysis) (n : Nat) (title content : String)
    (hlt : a.layout_type = "comparison" ∨ a.layout_type = "two_column")
    (hn : n < 3) :
    (create_slide_with_smart_layout n title content a).body = []
    ∧ (n < 2 →
      (create_slide_with_smart_layout n title content a).body
        = create_standard_content n content) := by
  have hn3 : ¬ 3 ≤ n := Nat.not_le.mpr hn
  have hbody : (create_slide_with_smart_layout n title content a).body = [] := by
    rcases hlt with h | h
    · simp [create_slide_with_smart_layout, h, create_comparison_content, hn3]
    · simp [create_slide_with_smart_layout, h, create_two_column_content, hn3]
  refine ⟨hbody, fun h2 => ?_⟩
  rw [hbody, create_standard_content, if_neg (Nat.not_le.mpr h2)]

/-- Claim C3, witness: the amended theorem applied at placeholder count 1 to
the comparison decision the classifier makes on `"- cats vs - dogs"`. -/
theorem planner_small_slot_empty_witness :
    (create_slide_with_smart_layout 1 "Pets" "- cats vs - dogs"
        (analyze_content_for_optimal_layout "- cats vs - dogs" "")).body = []
    ∧ (create_slide_with_smart_layout 1 "Pets" "- cats vs - dogs"
        (analyze_content_for_optimal_layout "- cats vs - dogs" "")).body
      = create_standard_content 1 "- cats vs - dogs" := by
  have h := planner_small_slot_empty
    (analyze_content_for_optimal_layout "- cats vs - dogs" "") 1 "Pets" "- cats vs - dogs"
    (Or.inl (by decide)) (by decide)
  exact ⟨h.1, h.2 (by decide)⟩

/-- Claim C4, counterexample: Python `split` cuts at every occurrence, so
the right side comes from the piece strictly between the first and second
keyword occurrences — not from everything after the first occurrence.  Here
the text after the first `vs` is `" - dogs vs - birds"`, whose bullet output
is `["dogs vs - birds"]`, but the extractor returns `["dogs"]`. -/
theorem comparison_second_occurrence_cx :
    splitFirst "vs".data (lowerC "- cats vs - dogs vs - birds".data)
      = some ("- cats ".data, " - dogs vs - birds".data)
    ∧ (extract_comparison_structure "- cats vs - dogs vs - birds").right_side = ["dogs"]
    ∧ extract_bullet_points " - dogs vs - birds" = ["dogs vs - birds"]
    ∧ (extract_comparison_structure "- cats vs - dogs vs - birds").right_side
      ≠ extract_bullet_points " - dogs vs - birds" := by
  refine ⟨?_, ?_, ?_, ?_⟩ <;> decide

/-- Claim C4, amended: for every content whose lowered form contains a
comparison keyword, the extractor takes the first keyword of the ordered
list that occurs, splits the lowered content at every occurrence of it, and
`left_side`/`right_side` are the bullet outputs of the first two pieces: the
text before the first occurrence and the text strictly between the first and
second occurrences (everything from the second occurrence on is dropped;
when the keyword occurs only once, the second piece is the whole remainder). -/
theorem comparison_split_segments (content : String) (kw b rest : List Char)
    (hfind : firstMatchingKeyword (lowerC content.data) = some kw)
    (hsplit : splitFirst kw (lowerC content.data) = some (b, rest)) :
    (extract_comparison_structure content).left_side = extract_bullet_points ⟨b⟩
    ∧ (extract_comparison_structure content).right_side
        = extract_bullet_points
            ⟨match splitFirst kw rest with
              | some (b2, _) => b2
              | none => rest⟩ := by
  have hkne : kw ≠ [] := by
    have hmem := List.mem_of_find?_eq_some hfind
    have hall : ∀ k ∈ comparisonSplitKeywords, k ≠ [] := by decide
    exact hall kw hmem
  rw [firstMatchingKeyword] at hfind
  have hspec := comparisonLoop_spec (lowerC content.data) comparisonSplitKeywords (by decide)
  rw [extract_comparison_structure, hspec, hfind]
  have hps := pySplit_cons hkne hsplit
  cases hs2 : splitFirst kw rest with
  | some p =>
    obtain ⟨b2, a2⟩ := p
    dsimp only
    rw [hps, pySplit_cons hkne hs2]
    exact ⟨rfl, rfl⟩
  | none =>
    dsimp only
    rw [hps, pySplit_of_none hs2]
    exact ⟨rfl, rfl⟩

/-- Claim C4, witness: the amended theorem at
`"- cats vs - dogs vs - birds"`, where the first matching keyword is `vs`. -/
theorem comparison_split_segments_witness :
    (extract_comparison_structure "- cats vs - dogs vs - birds").left_side
      = extract_bullet_points ⟨"- cats ".data⟩
    ∧ (extract_comparison_structure "- cats vs - dogs vs - birds").right_side
      = extract_bullet_points
          ⟨match splitFirst "vs".data " - dogs vs - birds".data with
            | some (b2, _) => b2
            | none => " - dogs vs - birds".data⟩ :=
  comparison_split_segments "- cats vs - dogs vs - birds" "vs".data
    "- cats ".data " - dogs vs - birds".data (by decide) (by decide)

/-- Claim C9, counterexample: for the already-clean point list `["alpha"]`,
extracting from the `"- "`-prefixed lines yields `["alpha"]`, but processing
the stripped versions again yields `[]` — the line `alpha` starts with no
marker and contains no trigger word, so the second pass drops it.  The two
runs differ, refuting the claimed idempotence for arbitrary point lists. -/
theorem bullet_reprocessing_cx :
    extract_bullet_points (joinLinesS (["alpha"].map fun p => "- " ++ p)) = ["alpha"]
    ∧ extract_bullet_points (joinLinesS ["alpha"]) = []
    ∧ (["alpha"] : List String) ≠ [] := by
  refine ⟨?_, ?_, ?_⟩ <;> decide

/-- Claim C9, amended: marker-stripping is idempotent on clean points, but a
second extraction pass preserves the list only when every point would be
re-selected.  For every list of points that are non-empty, newline-free, do
not start in the marker class, do not end in whitespace, and contain one of
the trigger words `important`/`key`/`main`/`primary`, extracting from the
`"- "`-prefixed lines returns the points unchanged, and so does extracting
from the stripped versions joined with newlines. -/
theorem bullet_extraction_clean_lists (ps : List String)
    (h : ∀ p ∈ ps, CleanPoint p) :
    extract_bullet_points (joinLinesS (ps.map fun p => "- " ++ p)) = ps
    ∧ extract_bullet_points (joinLinesS ps) = ps := by
  cases ps with
  | nil => exact ⟨by decide, by decide⟩
  | cons p0 rest =>
    have hne : (p0 :: rest : List String) ≠ [] := by simp
    constructor
    · have hrw : ((p0 :: rest).map fun p => "- " ++ p).map String.data
          = (p0 :: rest).map fun p => ("- " ++ p).data := by
        rw [List.map_map]; rfl
      rw [joinLinesS, hrw]
      apply extract_of_map _ _ hne
      · intro p hp
        show '\n' ∉ '-' :: ' ' :: p.data
        intro hmem
        rcases List.mem_cons.mp hmem with h1 | hmem
        · exact absurd h1 (by decide)
        rcases List.mem_cons.mp hmem with h1 | hmem
        · exact absurd h1 (by decide)
        exact (h p hp).2.1 hmem
      · intro p hp
        have hc := h p hp
        show bulletSelect ('-' :: ' ' :: p.data) = some p.data
        exact bulletSelect_dashed hc.1 hc.2.2.1 hc.2.2.2.1
    · have hsel : ∀ p ∈ p0 :: rest, bulletSelect (String.data p) = some p.data := by
        intro p hp
        have hc := h p hp
        exact bulletSelect_clean hc.1 hc.2.2.1 hc.2.2.2.1 hc.2.2.2.2
      exact extract_of_map String.data _ hne (fun p hp => (h p hp).2.1) hsel

/-- Claim C9, witness: the amended theorem applied to the clean point list
`["the key point"]`, whose point contains the trigger word `key`. -/
theorem bullet_extraction_clean_lists_witness :
    extract_bullet_points (joinLinesS (["the key point"].map fun p => "- " ++ p))
      = ["the key point"]
    ∧ extract_bullet_points (joinLinesS ["the key point"]) = ["the key point"] :=
  bullet_extraction_clean_lists ["the key point"] (by decide)

/-- Claim C10: every string of `left_side`/`right_side` is taken from the
lowercased content — each of its characters comes from `content.lower()`, so
the original casing of the input is not preserved in the extracted points. -/
theorem comparison_sides_lowercased (content : String) (p : String)
    (h : p ∈ (extract_comparison_structure content).left_side
       ∨ p ∈ (extract_comparison_structure content).right_side) :
    p.data ⊆ lowerC content.data := by
  suffices hloop : ∀ (kws : List (List Char)) (lower : List Char),
      (p ∈ (comparisonLoop lower kws).left_side
        ∨ p ∈ (comparisonLoop lower kws).right_side) →
      p.data ⊆ lower from
    hloop comparisonSplitKeywords (lowerC content.data) h
  intro kws
  induction kws with
  | nil =>
    intro lower hmem
    rcases hmem with hm | hm <;> simp [comparisonLoop] at hm
  | cons kw rest ih =>
    intro lower hmem
    by_cases hs : isSubstrC kw lower
    · cases hq : pySplit kw lower with
      | nil => exact absurd hq (pySplit_ne_nil kw lower)
      | cons q0 qt =>
        cases qt with
        | nil =>
          simp only [comparisonLoop, hs, if_true, hq] at hmem
          exact ih lower hmem
        | cons q1 qt2 =>
          simp only [comparisonLoop, hs, if_true, hq] at hmem
          have hq0 : q0 ∈ pySplit kw lower := hq ▸ List.Mem.head _
          have hq1 : q1 ∈ pySplit kw lower := hq ▸ List.Mem.tail _ (List.Mem.head _)
          rcases hmem with hm | hm
          · exact (extract_bullet_points_subset ⟨q0⟩ p hm).trans
              (pySplit_part_subset hq0)
          · exact (extract_bullet_points_subset ⟨q1⟩ p hm).trans
              (pySplit_part_subset hq1)
    · rw [Bool.not_eq_true] at hs
      simp only [comparisonLoop, hs, Bool.false_eq_true, if_false] at hmem
      exact ih lower hmem

/-- Claim C10, witness: on `"- Important Cats vs - Important Dogs"` the left
side is the lowercased `"important cats"`, and its characters all come from
the lowered content (the original `"Important Cats"` casing is gone). -/
theorem comparison_sides_lowercased_witness :
    ("important cats" : String)
        ∈ (extract_comparison_structure "- Important Cats vs - Important Dogs").left_side
    ∧ ("important cats" : String).data
        ⊆ lowerC ("- Important Cats vs - Important Dogs" : String).data :=
  ⟨by decide,
   comparison_sides_lowercased "- Important Cats vs - Important Dogs"
     "important cats" (Or.inl (by decide))⟩

end Waterfall
